import Mathlib

/-!
Sandbox account API.

A shallow embedding of the account handlers of `cmd/sandbox-api`
(`account_handlers.go`), of the single handler of `cmd/sandbox-server`
(`main.go`) and of the DynamoDB account store (`internal/dynamodb/accounts.go`).

Conventions of the embedding.

* A Go `error` is a value of `GoError`; the handlers only ever compare an error
  with a sentinel (`ErrAccountNotFound`, `pgx.ErrNoRows`) or with `nil`.
* A handler works on a `ResponseWriter`: the status line is fixed by the first
  `WriteHeader` (or by the first write, as 200) and later `WriteHeader` calls are
  ignored, as in `net/http`.
* Collaborators whose code lies outside the files read (the account provider,
  the job ledger, the JSON encoder, the payload renderers, the attribute
  decoder) are parameters.
* A call that ends the process (`log.Fatal`, `os.Exit`) is the outcome
  `Run.exits`; log lines that do not end the process are not modelled.
* The provider contract and the job ledger, whose implementations lie outside
  the files read, are modelled from the spec (`Store.*`, `Ledger.*`).
-/

namespace Sandbox

/-! ## Errors -/

/-- A fault of the key-value store: the `awserr.Error` of the SDK (code and
message) or any other error value. -/
inductive StoreFault
  | awserr (code message : String)
  | plain (text : String)
  deriving DecidableEq, Repr

/-- Go error values, up to what the code can tell apart with `==`. -/
inductive GoError
  | ErrAccountNotFound
  | ErrNoRows
  | store (fault : StoreFault)
  | other (text : String)
  deriving DecidableEq, Repr

/-! ## Data model -/

/-- Modelled from the spec: the record `models.AwsAccount` (section 3, Account);
its declaration is outside the files read. The handlers use `Name` and `Kind`. -/
structure AwsAccount where
  Name : String
  Kind : String
  Available : Bool
  ToCleanup : Bool
  Owner : String
  ServiceUuid : String
  deriving DecidableEq, Repr

/-- Modelled from the spec: the record `models.OcpAccount`, the OpenShift
counterpart of `AwsAccount`; its declaration is outside the files read. -/
structure OcpAccount where
  Name : String
  Kind : String
  ServiceUuid : String
  deriving DecidableEq, Repr

/-- Modelled from the spec: the record `models.LifecycleResourceJob` (section 3);
its declaration is outside the files read. The connection-pool field is not data
and is left out; fields a literal does not set have Go zero values. -/
structure LifecycleResourceJob where
  ID : Nat := 0
  ResourceType : String := ""
  ResourceName : String := ""
  RequestID : String := ""
  Action : String := ""
  Status : String := ""
  Result : String := ""
  CreatedAt : Nat := 0
  UpdatedAt : Nat := 0
  deriving DecidableEq, Repr

/-- Modelled from the spec: the projection `AccountStatus` (section 3): status,
result and update time of a job. -/
structure AccountStatus where
  Status : String
  Result : String
  UpdatedAt : Nat
  deriving DecidableEq, Repr

/-- Modelled from the spec: `models.MakeStatus`, which maps the job row into the
caller-facing status (section 4.3); its code is outside the files read. -/
def MakeStatus (job : LifecycleResourceJob) : AccountStatus :=
  { Status := job.Status, Result := job.Result, UpdatedAt := job.UpdatedAt }

/-! ## HTTP responses -/

/-- The values a handler hands to the encoder: the response types of package
`v1`, or JSON text produced by `json.Encoder` for an account or a list. -/
inductive Payload
  | Error (HTTPStatusCode : Nat) (Message : String)
  | SimpleMessage (Message : String)
  | LifecycleRequestResponse (HTTPStatusCode : Nat) (Message : String) (RequestID : String)
  | AccountStatusResponse (HTTPStatusCode : Nat) (Status : AccountStatus)
  | json (text : String)
  deriving DecidableEq, Repr

/-- The state of an `http.ResponseWriter`: the status line once it is fixed, and
what was written to the body, in order. -/
structure ResponseWriter where
  status : Option Nat := none
  body : List Payload := []
  deriving DecidableEq, Repr

/-- Go `w.WriteHeader(code)`: only the first call fixes the status. -/
def ResponseWriter.WriteHeader (w : ResponseWriter) (code : Nat) : ResponseWriter :=
  match w.status with
  | some _ => w
  | none => { w with status := some code }

/-- Go `w.Write`: a write before any `WriteHeader` fixes the status to 200. -/
def ResponseWriter.Write (w : ResponseWriter) (p : Payload) : ResponseWriter :=
  { status := some (w.status.getD 200), body := w.body ++ [p] }

/-- The status code the client receives: 200 when the handler returned without
fixing one. -/
def ResponseWriter.code (w : ResponseWriter) : Nat := w.status.getD 200

/-- The encoders of the transport layer, taken as parameters: `json.Encoder` on
an account and on account lists (an encoding, or an error with nothing written)
and the `Render` method of each `v1` payload (`nil`, or an error). -/
structure Wire where
  account : AwsAccount → Except GoError String
  accounts : List AwsAccount → Except GoError String
  ocpAccounts : List OcpAccount → Except GoError String
  render : Payload → Option GoError

/-- Go `enc.Encode(v1.Error{...})` on the response: the fixed error record is
written; the handlers drop the returned error. -/
def EncodeError (w : ResponseWriter) (code : Nat) (message : String) : ResponseWriter :=
  w.Write (Payload.Error code message)

/-- Go `render.Render(w, r, v)`: the payload's own `Render` runs first and its
error is returned with nothing written; otherwise the payload is written. -/
def Render (c : Wire) (w : ResponseWriter) (v : Payload) : Option GoError × ResponseWriter :=
  match c.render v with
  | some err => (some err, w)
  | none => (none, w.Write v)

/-- What `Render` adds to the body for payload `v`. -/
def rendered (c : Wire) (v : Payload) : List Payload :=
  if c.render v = none then [v] else []

/-- The parameters of a request the handlers read: the URL parameters `kind`
and `account`, the query parameter `service_uuid`, and the request id that the
request-id middleware put in the context. -/
structure Request where
  kind : String := ""
  account : String := ""
  service_uuid : String := ""
  reqId : String := ""
  deriving DecidableEq, Repr

/-- How a handler ends: it returns, or it panics on a nil interface (the server
then drops the connection). Either way the writer is what it had written. -/
inductive HandlerResult
  | returned (w : ResponseWriter)
  | panicked (w : ResponseWriter)
  deriving DecidableEq, Repr

/-! ## Providers -/

/-- The interface `models.AwsAccountProvider` over a backend state `σ`. Reads
leave the state alone; `MarkForCleanup` returns the new state. -/
structure AwsAccountProvider (σ : Type) where
  FetchAll : σ → Except GoError (List AwsAccount)
  FetchAllByServiceUuid : String → σ → Except GoError (List AwsAccount)
  FetchByName : String → σ → Except GoError AwsAccount
  MarkForCleanup : String → σ → Option GoError × σ

/-- The interface `models.OcpAccountProvider`, as far as the handlers call it. -/
structure OcpAccountProvider (σ : Type) where
  FetchAll : σ → Except GoError (List OcpAccount)
  FetchAllByServiceUuid : String → σ → Except GoError (List OcpAccount)

/-- The struct `AccountHandler`: two interface fields, each possibly nil. -/
structure AccountHandler (σ : Type) where
  AwsAccountProvider : Option (AwsAccountProvider σ)
  OcpAccountProvider : Option (OcpAccountProvider σ)

/-- Go `NewAccountHandler`: sets the AWS provider and leaves the other field at
its zero value. -/
def NewAccountHandler {σ : Type} (awsAccountProvider : Option (AwsAccountProvider σ)) :
    AccountHandler σ :=
  { AwsAccountProvider := awsAccountProvider, OcpAccountProvider := none }

/-- A call on the connection pool of the job ledger. -/
inductive DbCall
  | Create (job : LifecycleResourceJob)
  | GetLastStatus (account : AwsAccount)
  deriving DecidableEq, Repr

/-- The part of `BaseHandler` that the lifecycle and status handlers use: the
account provider handed over by `main`, and the two ledger operations that run
on `h.dbpool` (`LifecycleResourceJob.Create`, `AwsAccount.GetLastStatus`), whose
code is outside the files read. -/
structure BaseHandler (σ : Type) where
  awsAccountProvider : AwsAccountProvider σ
  Create : LifecycleResourceJob → Option GoError
  GetLastStatus : AwsAccount → Except GoError LifecycleResourceJob

/-! ## Handlers of `cmd/sandbox-api` -/

/-- Go `GetAccountsHandler`, `GET /accounts/{kind}`. -/
def AccountHandler.GetAccountsHandler {σ : Type} (c : Wire) (h : AccountHandler σ) (s : σ)
    (r : Request) : HandlerResult :=
  let w : ResponseWriter := {}
  let serviceUuid := r.service_uuid
  let kind := r.kind
  if kind = "aws" then
    match h.AwsAccountProvider with
    | none => .panicked w
    | some p =>
      let res := if serviceUuid ≠ "" then p.FetchAllByServiceUuid serviceUuid s else p.FetchAll s
      match res with
      | .error _ => .returned (EncodeError (w.WriteHeader 500) 500 "Error reading accounts")
      | .ok accounts =>
        let w := if accounts.length = 0 then w.WriteHeader 404 else w.WriteHeader 200
        match c.accounts accounts with
        | .ok text => .returned (w.Write (.json text))
        | .error _ => .returned (EncodeError (w.WriteHeader 500) 500 "Error reading account")
  else if kind = "ocp" then
    match h.OcpAccountProvider with
    | none => .panicked w
    | some p =>
      let res := if serviceUuid ≠ "" then p.FetchAllByServiceUuid serviceUuid s else p.FetchAll s
      match res with
      | .error _ => .returned (EncodeError (w.WriteHeader 500) 500 "Error reading accounts")
      | .ok accounts =>
        let w := if accounts.length = 0 then w.WriteHeader 404 else w.WriteHeader 200
        match c.ocpAccounts accounts with
        | .ok text => .returned (w.Write (.json text))
        | .error _ => .returned (EncodeError (w.WriteHeader 500) 500 "Error reading account")
  else
    .returned w

/-- Go `AccountHandler.GetAccountHandler`, `GET /accounts/{kind}/{account}`. -/
def AccountHandler.GetAccountHandler {σ : Type} (c : Wire) (h : AccountHandler σ) (s : σ)
    (r : Request) : HandlerResult :=
  let w : ResponseWriter := {}
  let accountName := r.account
  let kind := r.kind
  if kind = "aws" then
    match h.AwsAccountProvider with
    | none => .panicked w
    | some p =>
      match p.FetchByName accountName s with
      | .error err =>
        if err = GoError.ErrAccountNotFound then
          .returned (EncodeError (w.WriteHeader 404) 404 "Account not found")
        else
          .returned (EncodeError (w.WriteHeader 500) 500 "Error reading account")
      | .ok sandbox =>
        match c.account sandbox with
        | .ok text => .returned (w.Write (.json text))
        | .error _ => .returned (EncodeError (w.WriteHeader 500) 500 "Error reading account")
  else
    .returned w

/-- Go `CleanupAccountHandler`, `PUT /accounts/{kind}/{account}/cleanup`. The
second component is the backend state after the request. -/
def AccountHandler.CleanupAccountHandler {σ : Type} (c : Wire) (h : AccountHandler σ) (s : σ)
    (r : Request) : HandlerResult × σ :=
  let w : ResponseWriter := {}
  let accountName := r.account
  match h.AwsAccountProvider with
  | none => (.panicked w, s)
  | some p =>
    match p.FetchByName accountName s with
    | .error err =>
      if err = GoError.ErrAccountNotFound then
        (.returned (Render c (w.WriteHeader 404) (.Error 404 "Account not found")).2, s)
      else
        (.returned (Render c (w.WriteHeader 500) (.Error 500 "Error reading account")).2, s)
    | .ok sandbox =>
      match p.MarkForCleanup sandbox.Name s with
      | (some _, s1) =>
        (.returned
          (Render c (w.WriteHeader 500) (.Error 500 "Error marking account for cleanup")).2, s1)
      | (none, s1) =>
        (.returned (Render c (w.WriteHeader 200) (.SimpleMessage "Account marked for cleanup")).2,
          s1)

/-- Go `LifeCycleAccountHandler(action)`. The second component lists the calls
made on the job ledger, in order. -/
def BaseHandler.LifeCycleAccountHandler {σ : Type} (c : Wire) (h : BaseHandler σ)
    (action : String) (s : σ) (r : Request) : ResponseWriter × List DbCall :=
  let w : ResponseWriter := {}
  let accountName := r.account
  let reqId := r.reqId
  match h.awsAccountProvider.FetchByName accountName s with
  | .error err =>
    if err = GoError.ErrAccountNotFound then
      ((Render c (w.WriteHeader 404) (.Error 404 "Account not found")).2, [])
    else
      ((Render c (w.WriteHeader 500) (.Error 500 "Error reading account")).2, [])
  | .ok sandbox =>
    let lifecycleResourceJob : LifecycleResourceJob :=
      { ResourceType := sandbox.Kind
        ResourceName := sandbox.Name
        RequestID := reqId
        Action := action
        Status := "new" }
    match h.Create lifecycleResourceJob with
    | some _ =>
      ((Render c (w.WriteHeader 500) (.Error 500 "Error creating lifecycle resource job")).2,
        [.Create lifecycleResourceJob])
    | none =>
      ((Render c (w.WriteHeader 202)
          (.LifecycleRequestResponse 202 (action ++ " request created") reqId)).2,
        [.Create lifecycleResourceJob])

/-- Go `GetStatusAccountHandler`. The second component lists the calls made on
the job ledger, in order. -/
def BaseHandler.GetStatusAccountHandler {σ : Type} (c : Wire) (h : BaseHandler σ) (s : σ)
    (r : Request) : ResponseWriter × List DbCall :=
  let w : ResponseWriter := {}
  let accountName := r.account
  match h.awsAccountProvider.FetchByName accountName s with
  | .error err =>
    if err = GoError.ErrAccountNotFound then
      ((Render c (w.WriteHeader 404) (.Error 404 "Account not found")).2, [])
    else
      ((Render c (w.WriteHeader 500) (.Error 500 "Error reading account")).2, [])
  | .ok sandbox =>
    match h.GetLastStatus sandbox with
    | .error err =>
      if err = GoError.ErrNoRows then
        ((Render c (w.WriteHeader 404) (.Error 404 "Account status not found")).2,
          [.GetLastStatus sandbox])
      else
        ((Render c (w.WriteHeader 500) (.Error 500 "Error getting account status")).2,
          [.GetLastStatus sandbox])
    | .ok job =>
      let status := MakeStatus job
      let w := w.WriteHeader 200
      match Render c w (.AccountStatusResponse 200 status) with
      | (some _, w) =>
        ((Render c (w.WriteHeader 500) (.Error 500 "Error getting account status")).2,
          [.GetLastStatus sandbox])
      | (none, w) => (w, [.GetLastStatus sandbox])

/-! ## The DynamoDB account store (`internal/dynamodb`) -/

/-- The outcome of code that may end the process: it returns a value, or the
process exits with a code (`log.Fatal` and `os.Exit(1)` both exit with 1). -/
inductive Run (α : Type)
  | returns (a : α)
  | exits (code : Nat)
  deriving DecidableEq, Repr

/-- An attribute value of the store. -/
inductive AttributeValue
  | S (s : String)
  | N (n : String)
  | BOOL (b : Bool)
  | NULL
  deriving DecidableEq, Repr

/-- An item of the store: attribute names with their values. -/
abbrev Item := List (String × AttributeValue)

/-- Modelled from the spec: the record `account.Account` of the key-value
backend (section 3, and the attribute list of `GetAccounts`); its declaration is
outside the files read. `NameInt` is the derived numeric key. -/
structure Account where
  Name : String := ""
  NameInt : Int := 0
  Available : Bool := false
  ToCleanup : Bool := false
  Guid : String := ""
  ServiceUuid : String := ""
  Owner : String := ""
  Zone : String := ""
  AccountID : String := ""
  deriving DecidableEq, Repr

/-- The two errors of `strconv`. -/
inductive NumError
  | ErrSyntax
  | ErrRange
  deriving DecidableEq, Repr

/-- The width of Go `int` on the 64-bit platforms the service is built for. -/
def intSize : Nat := 64

/-- The bytes of a Go string. -/
def bytes (s : String) : List Nat := s.toUTF8.data.toList.map UInt8.toNat

/-- The test `'0' <= b && b <= '9'`. -/
def isDigit (b : Nat) : Bool := decide (48 ≤ b) && decide (b ≤ 57)

/-- Go `strconv.Atoi` on a byte string, after its documentation: an optional
sign, then one or more decimal digits; `ErrSyntax` for anything else, `ErrRange`
when the value does not fit in an `int`. -/
def Atoi (s : List Nat) : Except NumError Int :=
  match s with
  | [] => .error .ErrSyntax
  | c :: rest =>
    let neg : Bool := c = 45
    let ds := if c = 43 ∨ c = 45 then rest else s
    if ds = [] ∨ ds.all isDigit = false then .error .ErrSyntax
    else
      let un : Nat := ds.foldl (fun n d => n * 10 + (d - 48)) 0
      if neg = false ∧ 2 ^ (intSize - 1) ≤ un then .error .ErrRange
      else if neg = true ∧ 2 ^ (intSize - 1) < un then .error .ErrRange
      else .ok (if neg then - (un : Int) else (un : Int))

/-- Go `parseNameInt`: keeps the digit bytes of `s`, converts them with `Atoi`
and ends the process (`log.Err.Fatal`) when the conversion fails. -/
def parseNameInt (s : String) : Run Int :=
  let result := (bytes s).filter isDigit
  match Atoi result with
  | .error _ => .exits 1
  | .ok resultI => .returns resultI

/-- A page of a scan. -/
structure ScanOutput where
  Items : List Item
  deriving DecidableEq, Repr

/-- A condition of the SDK expression package; `unset` is the zero value of
`expression.ConditionBuilder`. -/
inductive ConditionBuilder
  | unset
  | Equal (name : String) (value : AttributeValue)
  | And (left right : ConditionBuilder)
  | Or (left right : ConditionBuilder)
  | Not (cond : ConditionBuilder)
  deriving DecidableEq, Repr

/-- Whether the SDK can build the condition: no unset node, no empty name. -/
def ConditionBuilder.buildable : ConditionBuilder → Bool
  | .unset => false
  | .Equal name _ => name ≠ ""
  | .And l r => l.buildable && r.buildable
  | .Or l r => l.buildable && r.buildable
  | .Not c => c.buildable

/-- The state of `expression.Builder`: one slot per expression kind. -/
structure Builder where
  filter : Option ConditionBuilder := none
  projection : Option (List String) := none
  deriving DecidableEq, Repr

/-- Go `expression.NewBuilder()`. -/
def NewBuilder : Builder := {}

/-- Go `builder.WithFilter(filter)`: stores the condition in the filter slot. -/
def Builder.WithFilter (b : Builder) (f : ConditionBuilder) : Builder :=
  { b with filter := some f }

/-- Go `builder.WithProjection(proj)`. -/
def Builder.WithProjection (b : Builder) (proj : List String) : Builder :=
  { b with projection := some proj }

/-- A built expression: the filter and the projection it carries. -/
structure Expression where
  Filter : Option ConditionBuilder
  Projection : Option (List String)
  deriving DecidableEq, Repr

/-- Go `builder.Build()`: fails on a builder with no slot set, on a condition
that cannot be built and on a projection that is empty or names nothing. -/
def Builder.Build (b : Builder) : Except GoError Expression :=
  if b.filter = none ∧ b.projection = none then .error (.other "unset parameter: Builder")
  else if (b.filter.all ConditionBuilder.buildable) = false then
    .error (.other "unset parameter: ConditionBuilder")
  else if (b.projection.all (fun l => decide (l ≠ []) && l.all (fun n => decide (n ≠ "")))) = false
  then .error (.other "unset parameter: ProjectionBuilder")
  else .ok { Filter := b.filter, Projection := b.projection }

/-- The input of `GetItem`. -/
structure GetItemInput where
  TableName : String
  Key : String
  deriving DecidableEq, Repr

/-- The input of a scan. -/
structure ScanInput where
  TableName : String
  ProjectionExpression : Option (List String)
  FilterExpression : Option ConditionBuilder
  deriving DecidableEq, Repr

/-- What `accounts.go` takes from outside: the table name of the environment,
the session `svc` (`GetItem`, and for a scan the pages the store delivers and
the fault that ends the scan, if any) and `dynamodbattribute.UnmarshalMap` into
an `account.Account`. -/
structure Backend where
  table : String
  GetItem : GetItemInput → Except StoreFault Item
  Scan : ScanInput → List ScanOutput × Option StoreFault
  UnmarshalMap : Item → Account → Except GoError Account

/-- The loop of `BuildAccounts` over the items still to read. -/
def BuildAccounts.loop (b : Backend) : List Item → List Account → Run (List Account)
  | [], accounts => .returns accounts
  | sandbox :: rest, accounts =>
    match b.UnmarshalMap sandbox {} with
    | .error _ => .exits 1
    | .ok item =>
      match parseNameInt item.Name with
      | .exits code => .exits code
      | .returns n => BuildAccounts.loop b rest (accounts ++ [{ item with NameInt := n }])

/-- Go `BuildAccounts`: the accounts of one page of a scan. -/
def BuildAccounts (b : Backend) (r : ScanOutput) : Run (List Account) :=
  BuildAccounts.loop b r.Items []

/-- Go `GetAccount`. -/
def GetAccount (b : Backend) (name : String) : Run (Account × Option GoError) :=
  let sandbox : Account := { Name := name }
  let input : GetItemInput := { TableName := b.table, Key := name }
  match b.GetItem input with
  | .error errget => .returns ({}, some (.store errget))
  | .ok item =>
    if item.length = 0 then .returns ({}, some .ErrAccountNotFound)
    else
      match b.UnmarshalMap item sandbox with
      | .error _ => .exits 1
      | .ok sandbox => .returns (sandbox, none)

/-- Go `svc.ScanPages(input, fn)`: `fn` gets each delivered page with the
last-page flag and the scan stops early when `fn` answers false; the result is
the fault that ended the scan, if any. `fn` carries the state of its closure. -/
def ScanPages {β : Type} (fn : ScanOutput → Bool → β → Run (β × Bool))
    (fault : Option StoreFault) : List ScanOutput → β → Run (β × Option StoreFault)
  | [], acc => .returns (acc, fault)
  | page :: rest, acc =>
    match fn page (rest.isEmpty && fault.isNone) acc with
    | .exits code => .exits code
    | .returns (acc1, true) => ScanPages fn fault rest acc1
    | .returns (acc1, false) => .returns (acc1, none)

/-- The attribute list of the projection in `GetAccounts`. -/
def projectionNames : List String :=
  ["name", "available", "to_cleanup", "guid", "service_uuid", "envtype", "owner", "zone",
   "hosted_zone_id", "account_id", "comment", "owner_email", "aws:rep:updatetime",
   "aws_access_key_id", "aws_secret_access_key", "conan_status", "conan_timestamp",
   "conan_hostname"]

/-- Go `GetAccounts`. -/
def GetAccounts (b : Backend) (filters : List ConditionBuilder) :
    Run (List Account × Option GoError) :=
  let accounts : List Account := []
  let proj := projectionNames
  let builder := filters.foldl (fun builder filter => builder.WithFilter filter) NewBuilder
  match (builder.WithProjection proj).Build with
  | .error _ => .exits 1
  | .ok expr =>
    let input : ScanInput :=
      { TableName := b.table
        ProjectionExpression := expr.Projection
        FilterExpression := expr.Filter }
    let delivered := b.Scan input
    match ScanPages
        (fun page _ accounts =>
          match BuildAccounts b page with
          | .exits code => .exits code
          | .returns built => .returns (accounts ++ built, true))
        delivered.2 delivered.1 accounts with
    | .exits code => .exits code
    | .returns (_, some errscan) => .returns ([], some (.store errscan))
    | .returns (accounts, none) => .returns (accounts, none)

/-! ## The handler of `cmd/sandbox-server` -/

/-- Go `GetAccountHandler` of `cmd/sandbox-server`, `GET /account/:account`;
`encode` is `json.Encoder` on an `account.Account`. -/
def Server.GetAccountHandler (b : Backend) (encode : Account → Except GoError String)
    (accountName : String) : Run ResponseWriter :=
  let w : ResponseWriter := {}
  match GetAccount b accountName with
  | .exits code => .exits code
  | .returns (_, some err) =>
    if err = GoError.ErrAccountNotFound then
      .returns (EncodeError (w.WriteHeader 404) 404 "Account not found")
    else
      .returns (EncodeError (w.WriteHeader 500) 500 "Error reading account")
  | .returns (sandbox, none) =>
    match encode sandbox with
    | .ok text => .returns (w.Write (.json text))
    | .error _ => .returns (EncodeError (w.WriteHeader 500) 500 "Error reading account")

/-! ## The provider contract of the spec, over a list of account records -/

/-- Modelled from the spec: `FetchByName` of the account provider (section 4.1),
whose implementation is outside the files read: the record of that name, and
`AccountNotFound` when no record matches. -/
def Store.FetchByName (name : String) (s : List AwsAccount) : Except GoError AwsAccount :=
  match s.find? (fun a => decide (a.Name = name)) with
  | some a => .ok a
  | none => .error .ErrAccountNotFound

/-- Modelled from the spec: `MarkForCleanup` of the account provider (section
4.1), whose implementation is outside the files read: sets `to_cleanup = true` on
the record of that name and is never an error. -/
def Store.MarkForCleanup (name : String) (s : List AwsAccount) :
    Option GoError × List AwsAccount :=
  (none, s.map (fun a => if a.Name = name then { a with ToCleanup := true } else a))

/-- Modelled from the spec: the account provider of section 4.1 over the list of
account records; its implementation is outside the files read. -/
def Store.provider : AwsAccountProvider (List AwsAccount) where
  FetchAll := fun s => .ok s
  FetchAllByServiceUuid := fun uuid s => .ok (s.filter (fun a => decide (a.ServiceUuid = uuid)))
  FetchByName := Store.FetchByName
  MarkForCleanup := Store.MarkForCleanup

/-- The provider method `MarkForCleanup(name)` called `n` times in a row: the
errors returned, in order, and the final state. -/
def markTimes {σ : Type} (p : AwsAccountProvider σ) (name : String) :
    Nat → σ → List (Option GoError) × σ
  | 0, s => ([], s)
  | n + 1, s =>
    let first := p.MarkForCleanup name s
    let later := markTimes p name n first.2
    (first.1 :: later.1, later.2)

/-- The same cleanup request served `n` times in a row: the results, in order,
and the final state. -/
def cleanupTimes {σ : Type} (c : Wire) (h : AccountHandler σ) (r : Request) :
    Nat → σ → List HandlerResult × σ
  | 0, s => ([], s)
  | n + 1, s =>
    let first := h.CleanupAccountHandler c s r
    let later := cleanupTimes c h r n first.2
    (first.1 :: later.1, later.2)

/-! ## The numeric key in the words of the spec -/

/-- The numeric key as the spec words it: strip every non-digit byte of the name
and read what is left as a base-10 numeral. -/
def specNumericKey (s : String) : Nat :=
  Nat.ofDigits 10 ((((bytes s).filter isDigit).map (fun b => b - 48)).reverse)

/-! ## Sample collaborators, used to instantiate the theorems -/

/-- A sample transport: accounts are encoded by their names, every payload
renders. -/
def sampleWire : Wire where
  account := fun a => .ok a.Name
  accounts := fun l => .ok (String.intercalate "," (l.map (fun a => a.Name)))
  ocpAccounts := fun l => .ok (String.intercalate "," (l.map (fun a => a.Name)))
  render := fun _ => none

/-- A sample account record. -/
def sampleAccount : AwsAccount :=
  { Name := "acct-042", Kind := "aws", Available := true, ToCleanup := false,
    Owner := "dev", ServiceUuid := "u-1" }

/-- A sample job row. -/
def sampleJob : LifecycleResourceJob :=
  { ID := 7, ResourceType := "aws", ResourceName := "acct-042", RequestID := "req-1",
    Action := "cleanup", Status := "success", Result := "done", CreatedAt := 10, UpdatedAt := 20 }

/-- A sample base handler over the list store: every `Create` succeeds and the
ledger holds one job, for `acct-042`. -/
def sampleBase : BaseHandler (List AwsAccount) where
  awsAccountProvider := Store.provider
  Create := fun _ => none
  GetLastStatus := fun a => if a.Name = "acct-042" then .ok sampleJob else .error .ErrNoRows

/-- A sample attribute decoder for the attributes `available` and `name`, after
the rules of the SDK decoder: a boolean attribute goes into the boolean field, a
string or number attribute goes into the string field, a null attribute gives the
zero value, and any other pairing is a type error. -/
def sampleUnmarshal (item : Item) (into : Account) : Except GoError Account :=
  match item.lookup "available" with
  | some (.S _) => .error (.other "UnmarshalTypeError: cannot unmarshal string into bool")
  | some (.N _) => .error (.other "UnmarshalTypeError: cannot unmarshal number into bool")
  | available =>
    let into : Account :=
      match available with
      | some (.BOOL v) => { into with Available := v }
      | some .NULL => { into with Available := false }
      | _ => into
    match item.lookup "name" with
    | some (.S n) => .ok { into with Name := n }
    | some (.N n) => .ok { into with Name := n }
    | some (.BOOL _) => .error (.other "UnmarshalTypeError: cannot unmarshal bool into string")
    | some .NULL => .ok { into with Name := "" }
    | none => .ok into

/-- A record whose `available` attribute was stored as a string. -/
def sampleBadItem : Item :=
  [("name", .S "acct-077"), ("available", .S "yes"), ("service_uuid", .S "u-77")]

/-- The pages of the sample scan: three well-formed records on two pages. -/
def samplePages : List ScanOutput :=
  [{ Items := [[("name", .S "acct-042"), ("available", .BOOL true)], [("name", .S "sandbox7")]] },
   { Items := [[("name", .S "sandbox12-3")]] }]

/-- A sample backend: records under `acct-042` and `acct-077`, a key for which
`GetItem` fails, a scan of two pages when no filter is set, and a scan of one
page holding `sampleBadItem` when a filter is set. -/
def sampleBackend : Backend where
  table := "accounts"
  GetItem := fun input =>
    if input.Key = "acct-042" then .ok [("name", .S "acct-042"), ("available", .BOOL true)]
    else if input.Key = "acct-077" then .ok sampleBadItem
    else if input.Key = "down" then .error (.awserr "InternalServerError" "try later")
    else .ok []
  Scan := fun input =>
    match input.FilterExpression with
    | none => (samplePages, none)
    | some _ => ([{ Items := [sampleBadItem] }], none)
  UnmarshalMap := sampleUnmarshal

/-- The account `BuildAccounts` makes of an item: `acc` is what the item
unmarshals to, with `NameInt` set to the numeric key of its name. -/
def builtFrom (b : Backend) (item : Item) (acc : Account) : Prop :=
  ∃ a, b.UnmarshalMap item {} = .ok a ∧ acc = { a with NameInt := acc.NameInt } ∧
    parseNameInt acc.Name = .returns acc.NameInt

/-- The items of a sequence of pages, pages in scan order and items in page
order. -/
def itemsOf (pages : List ScanOutput) : List Item :=
  (pages.map (fun page => page.Items)).flatten

/-- Whether an item satisfies a condition, as the store evaluates a filter
expression; an unset condition is never built, and is taken as not satisfied. -/
def ConditionBuilder.holds : ConditionBuilder → Item → Bool
  | .unset, _ => false
  | .Equal name value, item => decide (item.lookup name = some value)
  | .And l r, item => l.holds item && r.holds item
  | .Or l r, item => l.holds item || r.holds item
  | .Not c, item => !(c.holds item)

/-- A store that holds the items of `table`: `GetItem` finds the item by its
`name` attribute, and a scan delivers, on one page and without fault, the items
that satisfy the filter expression of the input (all items when it has none). -/
def tableBackend (table : List Item) : Backend where
  table := "accounts"
  GetItem := fun input =>
    .ok ((table.find? (fun item => decide (item.lookup "name" = some (.S input.Key)))).getD [])
  Scan := fun input =>
    ([{ Items := table.filter (fun item =>
          match input.FilterExpression with
          | none => true
          | some cond => cond.holds item) }], none)
  UnmarshalMap := sampleUnmarshal

/-- A record that is not available, reserved for the service `u-1`. -/
def sampleOffItem : Item :=
  [("name", .S "acct-001"), ("available", .BOOL false), ("service_uuid", .S "u-1")]

/-- A sample table of three records. -/
def sampleTable : List Item :=
  [sampleOffItem,
   [("name", .S "acct-002"), ("available", .BOOL true), ("service_uuid", .S "u-1")],
   [("name", .S "acct-003"), ("available", .BOOL true), ("service_uuid", .S "u-2")]]

/-! ## The job ledger in the words of the spec -/

/-- Modelled from the spec: the errors of the job ledger (section 7), whose code
is outside the files read: `NotFound` for an absent job, `Conflict` for an
illegal state transition. -/
inductive LedgerError
  | NotFound
  | Conflict
  deriving DecidableEq, Repr

/-- Modelled from the spec: the legal transitions of a job (section 4.2), `new`
to `running` and `running` to `success` or `error`; no other transition is
legal. The ledger's code is outside the files read. -/
def legalTransition (src dst : String) : Bool :=
  (decide (src = "new") && decide (dst = "running")) ||
  (decide (src = "running") && (decide (dst = "success") || decide (dst = "error")))

/-- Modelled from the spec: `Create` of the job ledger (section 4.2), whose code
is outside the files read: appends a row with status `new` and
`created_at = updated_at = now`; the system-generated id is the position of the
row in the append-only ledger. Returns the persisted job and the new ledger. -/
def Ledger.Create (rows : List LifecycleResourceJob) (job : LifecycleResourceJob) (now : Nat) :
    LifecycleResourceJob × List LifecycleResourceJob :=
  let row : LifecycleResourceJob :=
    { job with ID := rows.length, Status := "new", CreatedAt := now, UpdatedAt := now }
  (row, rows ++ [row])

/-- Modelled from the spec: `Advance(job_id, status, result)` of the job ledger
(section 4.2), whose code is outside the files read: the write path of the
external worker. It moves the job along a legal transition and fails with
`Conflict` on any other, with `NotFound` on an absent job. -/
def Ledger.Advance (rows : List LifecycleResourceJob) (id : Nat) (status result : String)
    (now : Nat) : Except LedgerError (List LifecycleResourceJob) :=
  match rows[id]? with
  | none => .error .NotFound
  | some row =>
    if legalTransition row.Status status = true then
      .ok (rows.set id { row with Status := status, Result := result, UpdatedAt := now })
    else .error .Conflict

/-- A write on the job ledger: a `Create` by the API process or an `Advance` by
the external worker. -/
inductive LedgerWrite
  | Create (job : LifecycleResourceJob) (now : Nat)
  | Advance (id : Nat) (status result : String) (now : Nat)
  deriving DecidableEq, Repr

/-- The ledger after a write; a write that fails leaves the ledger as it was. -/
def Ledger.step (rows : List LifecycleResourceJob) : LedgerWrite → List LifecycleResourceJob
  | .Create job now => (Ledger.Create rows job now).2
  | .Advance id status result now =>
    match Ledger.Advance rows id status result now with
    | .ok rows1 => rows1
    | .error _ => rows

/-- The status of job `id` in the ledger, if the job exists. -/
def Ledger.statusOf (rows : List LifecycleResourceJob) (id : Nat) : Option String :=
  (rows[id]?).map (fun row => row.Status)

/-- The status values of job `id` observable over a run of writes that starts in
`rows`: one entry each time the status of the job is set or changes. -/
def Ledger.history (id : Nat) : List LifecycleResourceJob → List LedgerWrite → List String
  | _, [] => []
  | rows, w :: ws =>
    (if Ledger.statusOf (Ledger.step rows w) id = Ledger.statusOf rows id then []
      else (Ledger.statusOf (Ledger.step rows w) id).toList) ++
    Ledger.history id (Ledger.step rows w) ws

/-- The histories a job may still show when its status is `s` (`none`: the job
does not exist yet). -/
def Ledger.allowed (s : Option String) (h : List String) : Prop :=
  match s with
  | none => List.IsPrefix h ["new", "running", "success"] ∨
      List.IsPrefix h ["new", "running", "error"]
  | some st =>
    if st = "new" then List.IsPrefix h ["running", "success"] ∨ List.IsPrefix h ["running", "error"]
    else if st = "running" then List.IsPrefix h ["success"] ∨ List.IsPrefix h ["error"]
    else h = []

/-- A sample run on the ledger: a job is created, a second one is created, the
first is advanced to `running` and `success`, then two writes on it that are not
legal are attempted. -/
def sampleRun : List LedgerWrite :=
  [.Create { ResourceName := "acct-042", Action := "cleanup" } 10,
   .Create { ResourceName := "acct-042", Action := "stop" } 11,
   .Advance 0 "running" "" 12,
   .Advance 0 "success" "done" 13,
   .Advance 0 "running" "" 14,
   .Advance 0 "new" "" 15]

/-! ## Theorems -/

/-- C1: when `FetchByName` reports `AccountNotFound`, `LifeCycleAccountHandler`
answers 404 with the message "Account not found" and makes no call on the job
ledger, for every action and every request; in particular `Create` is never
called. -/
theorem lifecycle_account_not_found {σ : Type} (c : Wire) (h : BaseHandler σ)
    (action : String) (s : σ) (r : Request)
    (hnf : h.awsAccountProvider.FetchByName r.account s = .error .ErrAccountNotFound) :
    (h.LifeCycleAccountHandler c action s r).1.code = 404 ∧
    (h.LifeCycleAccountHandler c action s r).1.body =
      rendered c (.Error 404 "Account not found") ∧
    (h.LifeCycleAccountHandler c action s r).2 = [] ∧
    ∀ job, DbCall.Create job ∉ (h.LifeCycleAccountHandler c action s r).2 := by
  have hcalls : (h.LifeCycleAccountHandler c action s r).2 = [] := by
    simp [BaseHandler.LifeCycleAccountHandler, hnf]
  refine ⟨?_, ?_, hcalls, ?_⟩
  · simp only [BaseHandler.LifeCycleAccountHandler, hnf, Render, ResponseWriter.WriteHeader]
    cases c.render (.Error 404 "Account not found") <;>
      simp [ResponseWriter.code, ResponseWriter.Write]
  · simp only [BaseHandler.LifeCycleAccountHandler, hnf, Render, ResponseWriter.WriteHeader,
      rendered]
    cases c.render (.Error 404 "Account not found") <;> simp [ResponseWriter.Write]
  · intro job; rw [hcalls]; simp

/-- Witness of C1 on the sample handler: a lifecycle request for `ghost-acct`,
which the store does not hold. -/
theorem lifecycle_account_not_found_witness :
    (sampleBase.LifeCycleAccountHandler sampleWire "stop" [sampleAccount]
        { account := "ghost-acct", reqId := "req-9" }).1.code = 404 ∧
    (sampleBase.LifeCycleAccountHandler sampleWire "stop" [sampleAccount]
        { account := "ghost-acct", reqId := "req-9" }).2 = [] :=
  have h := lifecycle_account_not_found sampleWire sampleBase "stop" [sampleAccount]
    { account := "ghost-acct", reqId := "req-9" } (by rfl)
  ⟨h.1, h.2.2.1⟩

/-- The writer after `WriteHeader code` on a fresh writer followed by `Render`:
the status is `code` and the body is what the payload renders to. -/
theorem render_fresh (c : Wire) (code : Nat) (v : Payload) :
    (Render c (({} : ResponseWriter).WriteHeader code) v).2 =
      { status := some code, body := rendered c v } := by
  unfold Render rendered ResponseWriter.WriteHeader
  cases c.render v <;> simp [ResponseWriter.Write]

/-- C2: when `FetchByName` resolves the account, `LifeCycleAccountHandler` makes
exactly one ledger call, a `Create` of a job with status "new", the resolved
account's name and kind, the requested action and the request's id; and when
that `Create` succeeds the reply is 202 and carries the same request id. -/
theorem lifecycle_submits_one_new_job {σ : Type} (c : Wire) (h : BaseHandler σ)
    (action : String) (s : σ) (r : Request) (sandbox : AwsAccount)
    (hok : h.awsAccountProvider.FetchByName r.account s = .ok sandbox) :
    ∃ job : LifecycleResourceJob,
      (h.LifeCycleAccountHandler c action s r).2 = [DbCall.Create job] ∧
      job.Status = "new" ∧ job.ResourceName = sandbox.Name ∧
      job.ResourceType = sandbox.Kind ∧ job.Action = action ∧ job.RequestID = r.reqId ∧
      (h.Create job = none →
        (h.LifeCycleAccountHandler c action s r).1.code = 202 ∧
        (h.LifeCycleAccountHandler c action s r).1.body =
          rendered c (.LifecycleRequestResponse 202 (action ++ " request created") r.reqId)) := by
  refine ⟨{ ResourceType := sandbox.Kind, ResourceName := sandbox.Name, RequestID := r.reqId,
            Action := action, Status := "new" }, ?_, rfl, rfl, rfl, rfl, rfl, ?_⟩
  · simp only [BaseHandler.LifeCycleAccountHandler, hok]
    split <;> rfl
  · intro hcreate
    simp only [BaseHandler.LifeCycleAccountHandler, hok, hcreate, render_fresh]
    simp [ResponseWriter.code]

/-- Witness of C2 on the sample handler: a `stop` request for `acct-042`. -/
theorem lifecycle_submits_one_new_job_witness :
    ∃ job : LifecycleResourceJob,
      (sampleBase.LifeCycleAccountHandler sampleWire "stop" [sampleAccount]
          { account := "acct-042", reqId := "req-9" }).2 = [DbCall.Create job] ∧
      job.Status = "new" ∧ job.ResourceName = "acct-042" ∧
      job.ResourceType = "aws" ∧ job.Action = "stop" ∧ job.RequestID = "req-9" ∧
      (sampleBase.Create job = none →
        (sampleBase.LifeCycleAccountHandler sampleWire "stop" [sampleAccount]
          { account := "acct-042", reqId := "req-9" }).1.code = 202 ∧
        (sampleBase.LifeCycleAccountHandler sampleWire "stop" [sampleAccount]
          { account := "acct-042", reqId := "req-9" }).1.body =
          rendered sampleWire (.LifecycleRequestResponse 202 ("stop" ++ " request created")
            "req-9")) :=
  lifecycle_submits_one_new_job sampleWire sampleBase "stop" [sampleAccount]
    { account := "acct-042", reqId := "req-9" } sampleAccount (by rfl)

/-- C3: `GetStatusAccountHandler` answers 404 exactly when `FetchByName` gives
`AccountNotFound` or the resolved account's `GetLastStatus` gives no rows; with
`AccountNotFound` the ledger is not read and the answer is not 500; when a job
is found the answer is 200 and the body is the status built from that job (the
error payload if the status response fails to render); and the answer is 500
exactly for the other faults of the two lookups. -/
theorem get_status_answers {σ : Type} (c : Wire) (h : BaseHandler σ) (s : σ) (r : Request) :
    ((h.GetStatusAccountHandler c s r).1.code = 404 ↔
      (h.awsAccountProvider.FetchByName r.account s = .error .ErrAccountNotFound ∨
        ∃ a, h.awsAccountProvider.FetchByName r.account s = .ok a ∧
          h.GetLastStatus a = .error .ErrNoRows)) ∧
    (h.awsAccountProvider.FetchByName r.account s = .error .ErrAccountNotFound →
      (h.GetStatusAccountHandler c s r).2 = [] ∧
      (h.GetStatusAccountHandler c s r).1.code ≠ 500) ∧
    (∀ a job, h.awsAccountProvider.FetchByName r.account s = .ok a →
      h.GetLastStatus a = .ok job →
      (h.GetStatusAccountHandler c s r).1.code = 200 ∧
      (h.GetStatusAccountHandler c s r).2 = [DbCall.GetLastStatus a] ∧
      (h.GetStatusAccountHandler c s r).1.body =
        if c.render (.AccountStatusResponse 200 (MakeStatus job)) = none
        then [.AccountStatusResponse 200 (MakeStatus job)]
        else rendered c (.Error 500 "Error getting account status")) ∧
    ((h.GetStatusAccountHandler c s r).1.code = 500 ↔
      ((∃ e, h.awsAccountProvider.FetchByName r.account s = .error e ∧
          e ≠ .ErrAccountNotFound) ∨
        ∃ a e, h.awsAccountProvider.FetchByName r.account s = .ok a ∧
          h.GetLastStatus a = .error e ∧ e ≠ .ErrNoRows)) := by
  cases hf : h.awsAccountProvider.FetchByName r.account s with
  | error e =>
    by_cases he : e = .ErrAccountNotFound
    · subst he
      simp [BaseHandler.GetStatusAccountHandler, hf, render_fresh, ResponseWriter.code]
    · simp [BaseHandler.GetStatusAccountHandler, hf, render_fresh, ResponseWriter.code, he]
  | ok a =>
    cases hg : h.GetLastStatus a with
    | error e =>
      by_cases he : e = .ErrNoRows
      · subst he
        simp [BaseHandler.GetStatusAccountHandler, hf, hg, render_fresh, ResponseWriter.code]
        intro a1 j1 ha; subst ha; simp [hg]
      · simp [BaseHandler.GetStatusAccountHandler, hf, hg, render_fresh, ResponseWriter.code, he]
        intro a1 j1 ha; subst ha; simp [hg]
    | ok job =>
      cases hr : c.render (.AccountStatusResponse 200 (MakeStatus job)) with
      | none =>
        simp [BaseHandler.GetStatusAccountHandler, hf, hg, Render, hr, ResponseWriter.code,
          ResponseWriter.WriteHeader, ResponseWriter.Write]
        intro a1 j1 ha hj; subst ha; rw [hg] at hj; cases hj; simp [hr]
      | some err =>
        cases hr2 : c.render (.Error 500 "Error getting account status") <;>
          simp [BaseHandler.GetStatusAccountHandler, hf, hg, Render, hr, hr2, rendered,
            ResponseWriter.code, ResponseWriter.WriteHeader, ResponseWriter.Write] <;>
          (intro a1 j1 ha hj; subst ha; rw [hg] at hj; cases hj; simp [hr])

/-- Witness of C3 on the sample handler: `ghost-acct` is not in the store, so
the answer is 404 and the ledger is not read; `acct-042` has a job, so the
answer is 200. -/
theorem get_status_answers_witness :
    (sampleBase.GetStatusAccountHandler sampleWire [sampleAccount]
        { account := "ghost-acct" }).1.code = 404 ∧
    (sampleBase.GetStatusAccountHandler sampleWire [sampleAccount]
        { account := "ghost-acct" }).2 = [] ∧
    (sampleBase.GetStatusAccountHandler sampleWire [sampleAccount]
        { account := "acct-042" }).1.code = 200 :=
  ⟨(get_status_answers sampleWire sampleBase [sampleAccount] { account := "ghost-acct" }).1.2
      (Or.inl (by rfl)),
   ((get_status_answers sampleWire sampleBase [sampleAccount] { account := "ghost-acct" }).2.1
      (by rfl)).1,
   ((get_status_answers sampleWire sampleBase [sampleAccount] { account := "acct-042" }).2.2.1
      sampleAccount sampleJob (by rfl) (by rfl)).1⟩

/-- C4, as stated, fails: for the key `acct-077` `GetItem` succeeds with an item
that has attributes, yet `GetAccount` returns neither an account nor an error: the
item does not unmarshal and the process exits with code 1. -/
theorem get_account_unmarshal_failure_exits :
    sampleBackend.GetItem { TableName := sampleBackend.table, Key := "acct-077" } =
      .ok sampleBadItem ∧
    sampleBadItem.length ≠ 0 ∧
    GetAccount sampleBackend "acct-077" = .exits 1 ∧
    ¬ ∃ sandbox err, GetAccount sampleBackend "acct-077" = .returns (sandbox, err) := by
  have hexit : GetAccount sampleBackend "acct-077" = .exits 1 := by rfl
  refine ⟨by rfl, by decide, hexit, ?_⟩
  rintro ⟨sandbox, err, h⟩
  rw [hexit] at h
  cases h

/-- C4, amended: `GetAccount` returns `ErrAccountNotFound` exactly when `GetItem`
succeeds with an item of no attributes; when `GetItem` fails it returns the
empty account with that fault, which is not `ErrAccountNotFound`; when `GetItem`
succeeds with a non-empty item that unmarshals, it returns the unmarshalled
account and no error; and when that item does not unmarshal, the process exits
and nothing is returned. -/
theorem get_account_outcomes (b : Backend) (name : String) :
    ((∃ a, GetAccount b name = .returns (a, some .ErrAccountNotFound)) ↔
      ∃ item, b.GetItem { TableName := b.table, Key := name } = .ok item ∧ item.length = 0) ∧
    (∀ fault, b.GetItem { TableName := b.table, Key := name } = .error fault →
      GetAccount b name = .returns ({}, some (.store fault)) ∧
      GoError.store fault ≠ GoError.ErrAccountNotFound) ∧
    (∀ item sandbox, b.GetItem { TableName := b.table, Key := name } = .ok item →
      item.length ≠ 0 → b.UnmarshalMap item { Name := name } = .ok sandbox →
      GetAccount b name = .returns (sandbox, none)) ∧
    (∀ item err, b.GetItem { TableName := b.table, Key := name } = .ok item →
      item.length ≠ 0 → b.UnmarshalMap item { Name := name } = .error err →
      GetAccount b name = .exits 1) := by
  refine ⟨⟨?_, ?_⟩, ?_, ?_, ?_⟩
  · rintro ⟨a, ha⟩
    unfold GetAccount at ha
    cases hg : b.GetItem { TableName := b.table, Key := name } with
    | error fault => simp [hg] at ha
    | ok item =>
      by_cases hlen : item.length = 0
      · exact ⟨item, rfl, hlen⟩
      · cases hu : b.UnmarshalMap item { Name := name } <;> simp [hg, hlen, hu] at ha
  · rintro ⟨item, hg, hlen⟩
    exact ⟨{}, by simp [GetAccount, hg, hlen]⟩
  · intro fault hg
    simp [GetAccount, hg]
  · intro item sandbox hg hlen hu
    simp [GetAccount, hg, hlen, hu]
  · intro item err hg hlen hu
    simp [GetAccount, hg, hlen, hu]

/-- Witness of the amended C4 on the sample backend: `ghost-acct` has no item,
`down` makes `GetItem` fail, `acct-042` is found, `acct-077` does not
unmarshal. -/
theorem get_account_outcomes_witness :
    (∃ a, GetAccount sampleBackend "ghost-acct" = .returns (a, some .ErrAccountNotFound)) ∧
    GetAccount sampleBackend "down" =
      .returns ({}, some (.store (.awserr "InternalServerError" "try later"))) ∧
    GetAccount sampleBackend "acct-042" =
      .returns ({ Name := "acct-042", Available := true }, none) ∧
    GetAccount sampleBackend "acct-077" = .exits 1 :=
  ⟨(get_account_outcomes sampleBackend "ghost-acct").1.2 ⟨[], by rfl, by rfl⟩,
   ((get_account_outcomes sampleBackend "down").2.1 _ (by rfl)).1,
   (get_account_outcomes sampleBackend "acct-042").2.2.1
      [("name", .S "acct-042"), ("available", .BOOL true)]
      { Name := "acct-042", Available := true } (by rfl) (by decide) (by rfl),
   (get_account_outcomes sampleBackend "acct-077").2.2.2 sampleBadItem
      (.other "UnmarshalTypeError: cannot unmarshal string into bool") (by rfl) (by decide)
      (by rfl)⟩

/-- C5: the response of `GetAccountHandler` is fixed by the class of the lookup
outcome, in `sandbox-server` (lookup `GetAccount`) and in `sandbox-api` for kind
"aws" (lookup `FetchByName`): `AccountNotFound` gives 404 with "Account not
found"; every other error gives the one response 500 with "Error reading
account", whatever the error; no error gives 200 with the encoded account as
body. -/
theorem get_account_handler_by_class {σ : Type} (b : Backend)
    (encode : Account → Except GoError String) (accountName : String)
    (c : Wire) (p : AwsAccountProvider σ) (s : σ) (r : Request) (hkind : r.kind = "aws") :
    ((∀ a, GetAccount b accountName = .returns (a, some .ErrAccountNotFound) →
        Server.GetAccountHandler b encode accountName =
          .returns { status := some 404, body := [.Error 404 "Account not found"] }) ∧
      (∀ a e, GetAccount b accountName = .returns (a, some e) → e ≠ .ErrAccountNotFound →
        Server.GetAccountHandler b encode accountName =
          .returns { status := some 500, body := [.Error 500 "Error reading account"] }) ∧
      (∀ a text, GetAccount b accountName = .returns (a, none) → encode a = .ok text →
        Server.GetAccountHandler b encode accountName =
          .returns { status := some 200, body := [.json text] })) ∧
    ((p.FetchByName r.account s = .error .ErrAccountNotFound →
        (NewAccountHandler (some p)).GetAccountHandler c s r =
          .returned { status := some 404, body := [.Error 404 "Account not found"] }) ∧
      (∀ e, p.FetchByName r.account s = .error e → e ≠ .ErrAccountNotFound →
        (NewAccountHandler (some p)).GetAccountHandler c s r =
          .returned { status := some 500, body := [.Error 500 "Error reading account"] }) ∧
      (∀ a text, p.FetchByName r.account s = .ok a → c.account a = .ok text →
        (NewAccountHandler (some p)).GetAccountHandler c s r =
          .returned { status := some 200, body := [.json text] })) := by
  refine ⟨⟨?_, ?_, ?_⟩, ?_, ?_, ?_⟩
  · intro a ha
    simp [Server.GetAccountHandler, ha, EncodeError, ResponseWriter.WriteHeader,
      ResponseWriter.Write]
  · intro a e ha he
    simp [Server.GetAccountHandler, ha, he, EncodeError, ResponseWriter.WriteHeader,
      ResponseWriter.Write]
  · intro a text ha henc
    simp [Server.GetAccountHandler, ha, henc, ResponseWriter.Write]
  · intro hf
    simp [AccountHandler.GetAccountHandler, NewAccountHandler, hkind, hf, EncodeError,
      ResponseWriter.WriteHeader, ResponseWriter.Write]
  · intro e hf he
    simp [AccountHandler.GetAccountHandler, NewAccountHandler, hkind, hf, he, EncodeError,
      ResponseWriter.WriteHeader, ResponseWriter.Write]
  · intro a text hf henc
    simp [AccountHandler.GetAccountHandler, NewAccountHandler, hkind, hf, henc,
      ResponseWriter.Write]

/-- Witness of C5: the server handler on the sample backend for a missing
account, a store fault and a found account, and the API handler on the sample
store for a missing and a found account. -/
theorem get_account_handler_by_class_witness :
    Server.GetAccountHandler sampleBackend (fun a => .ok a.Name) "ghost-acct" =
      .returns { status := some 404, body := [.Error 404 "Account not found"] } ∧
    Server.GetAccountHandler sampleBackend (fun a => .ok a.Name) "down" =
      .returns { status := some 500, body := [.Error 500 "Error reading account"] } ∧
    Server.GetAccountHandler sampleBackend (fun a => .ok a.Name) "acct-042" =
      .returns { status := some 200, body := [.json "acct-042"] } ∧
    (NewAccountHandler (some Store.provider)).GetAccountHandler sampleWire [sampleAccount]
        { kind := "aws", account := "ghost-acct" } =
      .returned { status := some 404, body := [.Error 404 "Account not found"] } ∧
    (NewAccountHandler (some Store.provider)).GetAccountHandler sampleWire [sampleAccount]
        { kind := "aws", account := "acct-042" } =
      .returned { status := some 200, body := [.json "acct-042"] } :=
  ⟨(get_account_handler_by_class sampleBackend (fun a => .ok a.Name) "ghost-acct" sampleWire
      Store.provider [sampleAccount] { kind := "aws", account := "ghost-acct" } rfl).1.1
      {} (by rfl),
   (get_account_handler_by_class sampleBackend (fun a => .ok a.Name) "down" sampleWire
      Store.provider [sampleAccount] { kind := "aws", account := "ghost-acct" } rfl).1.2.1
      {} (.store (.awserr "InternalServerError" "try later")) (by rfl) (by decide),
   (get_account_handler_by_class sampleBackend (fun a => .ok a.Name) "acct-042" sampleWire
      Store.provider [sampleAccount] { kind := "aws", account := "ghost-acct" } rfl).1.2.2
      { Name := "acct-042", Available := true } "acct-042" (by rfl) (by rfl),
   (get_account_handler_by_class sampleBackend (fun a => .ok a.Name) "ghost-acct" sampleWire
      Store.provider [sampleAccount] { kind := "aws", account := "ghost-acct" } rfl).2.1
      (by rfl),
   (get_account_handler_by_class sampleBackend (fun a => .ok a.Name) "ghost-acct" sampleWire
      Store.provider [sampleAccount] { kind := "aws", account := "acct-042" } rfl).2.2.2
      sampleAccount "acct-042" (by rfl) (by rfl)⟩

/-- C8: for kind "aws", when the provider call selected by `service_uuid`
(`FetchAllByServiceUuid` if it is non-empty, `FetchAll` otherwise) returns a list
without error, `GetAccountsHandler` answers 404 if the list is empty and 200
otherwise, and the body is the JSON encoding of that list. -/
theorem get_accounts_handler_status {σ : Type} (c : Wire) (p : AwsAccountProvider σ) (s : σ)
    (r : Request) (accounts : List AwsAccount) (hkind : r.kind = "aws")
    (hlist : (if r.service_uuid ≠ "" then p.FetchAllByServiceUuid r.service_uuid s
        else p.FetchAll s) = .ok accounts) :
    ∃ w, (NewAccountHandler (some p)).GetAccountsHandler c s r = .returned w ∧
      w.code = (if accounts = [] then 404 else 200) ∧
      ∀ text, c.accounts accounts = .ok text → w.body = [.json text] := by
  cases henc : c.accounts accounts with
  | error e =>
    refine ⟨_, by simp only [AccountHandler.GetAccountsHandler, NewAccountHandler, hkind,
      hlist, henc]; rfl, ?_, ?_⟩
    · cases accounts <;> simp [ResponseWriter.code, ResponseWriter.WriteHeader, EncodeError,
        ResponseWriter.Write]
    · intro text ht; cases ht
  | ok text =>
    refine ⟨_, by simp only [AccountHandler.GetAccountsHandler, NewAccountHandler, hkind,
      hlist, henc]; rfl, ?_, ?_⟩
    · cases accounts <;> simp [ResponseWriter.code, ResponseWriter.WriteHeader,
        ResponseWriter.Write]
    · intro t ht; cases ht
      cases accounts <;> simp [ResponseWriter.WriteHeader, ResponseWriter.Write]

/-- Witness of C8 on the sample store: the list of all accounts (one record,
200) and the list for a service uuid nobody has (empty, 404). -/
theorem get_accounts_handler_status_witness :
    (∃ w, (NewAccountHandler (some Store.provider)).GetAccountsHandler sampleWire
        [sampleAccount] { kind := "aws" } = .returned w ∧
      w.code = (if [sampleAccount] = [] then 404 else 200) ∧
      ∀ text, sampleWire.accounts [sampleAccount] = .ok text → w.body = [.json text]) ∧
    (∃ w, (NewAccountHandler (some Store.provider)).GetAccountsHandler sampleWire
        [sampleAccount] { kind := "aws", service_uuid := "u-404" } = .returned w ∧
      w.code = (if ([] : List AwsAccount) = [] then 404 else 200) ∧
      ∀ text, sampleWire.accounts [] = .ok text → w.body = [.json text]) :=
  ⟨get_accounts_handler_status sampleWire Store.provider [sampleAccount] { kind := "aws" }
      [sampleAccount] rfl (by rfl),
   get_accounts_handler_status sampleWire Store.provider [sampleAccount]
      { kind := "aws", service_uuid := "u-404" } [] rfl (by rfl)⟩

/-- The value `Atoi` accumulates over a digit string, read left to right. -/
theorem foldl_digits_eq_ofDigits (ds : List Nat) :
    ds.foldl (fun n d => n * 10 + (d - 48)) 0 =
      Nat.ofDigits 10 ((ds.map (fun b => b - 48)).reverse) := by
  induction ds using List.reverseRecOn with
  | nil => simp
  | append_singleton l d ih =>
    simp only [List.foldl_append, List.foldl_cons, List.foldl_nil, List.map_append,
      List.map_cons, List.map_nil, List.reverse_append, List.reverse_cons, List.reverse_nil,
      List.nil_append, List.singleton_append, Nat.ofDigits_cons, ih]
    ring

/-- Leading zero digits do not change the accumulated value. -/
theorem foldl_digits_zeros (k : Nat) (ds : List Nat) :
    (List.replicate k 48 ++ ds).foldl (fun n d => n * 10 + (d - 48)) 0 =
      ds.foldl (fun n d => n * 10 + (d - 48)) 0 := by
  induction k with
  | zero => simp
  | succ k ih =>
    rw [List.replicate_succ, List.cons_append, List.foldl_cons]
    simpa using ih

/-- `Atoi` on a non-empty string of digits: the value, or `ErrRange` when it
does not fit. -/
theorem Atoi_digits (ds : List Nat) (hne : ds ≠ []) (hall : ∀ d ∈ ds, isDigit d = true) :
    Atoi ds =
      if 2 ^ (intSize - 1) ≤ ds.foldl (fun n d => n * 10 + (d - 48)) 0 then .error .ErrRange
      else .ok ((ds.foldl (fun n d => n * 10 + (d - 48)) 0 : Nat) : Int) := by
  cases ds with
  | nil => exact absurd rfl hne
  | cons c rest =>
    have hc : isDigit c = true := hall c (List.mem_cons_self c rest)
    have hc1 : 48 ≤ c := by simp [isDigit] at hc; exact hc.1
    have h43 : c ≠ 43 := by omega
    have h45 : c ≠ 45 := by omega
    have hall2 : (c :: rest).all isDigit = true := by
      rw [List.all_eq_true]; exact hall
    simp only [Atoi, h43, h45, or_self, if_false, hall2, decide_False, Bool.false_eq_true,
      false_and, List.cons_ne_nil, Bool.true_eq_false, true_and, reduceCtorEq]

/-- `parseNameInt` ends the process with exit code 1 only. -/
theorem parseNameInt_exits_code (s : String) (code : Nat) (h : parseNameInt s = .exits code) :
    code = 1 := by
  unfold parseNameInt at h
  cases hA : Atoi ((bytes s).filter isDigit) <;> simp [hA] at h
  exact h.symm

/-- `BuildAccounts.loop` ends the process as soon as one record of the page has a
name whose numeric key cannot be derived. -/
theorem BuildAccounts_loop_exits (b : Backend) (items : List Item) (acc : List Account)
    (h : ∃ item ∈ items, ∃ a, b.UnmarshalMap item {} = .ok a ∧ parseNameInt a.Name = .exits 1) :
    BuildAccounts.loop b items acc = .exits 1 := by
  induction items generalizing acc with
  | nil => obtain ⟨item, hmem, _⟩ := h; cases hmem
  | cons x rest ih =>
    unfold BuildAccounts.loop
    cases hu : b.UnmarshalMap x {} with
    | error e => rfl
    | ok a0 =>
      cases hp : parseNameInt a0.Name with
      | exits code =>
        have hcode := parseNameInt_exits_code _ _ hp
        subst hcode
        simp only [hp]
      | returns n =>
        simp only [hp]
        apply ih
        obtain ⟨item, hmem, a, ha, hpa⟩ := h
        rcases List.mem_cons.1 hmem with heq | hin
        · subst heq
          rw [hu] at ha; cases ha
          rw [hp] at hpa; cases hpa
        · exact ⟨item, hin, a, ha, hpa⟩

/-- C6, as stated, fails: for the name "acct-xyz" `parseNameInt` returns nothing
to its caller, the process exits with code 1; so does `BuildAccounts` on a page
holding a record of that name. -/
theorem parseNameInt_no_digit_aborts :
    parseNameInt "acct-xyz" = .exits 1 ∧
    (¬ ∃ v, parseNameInt "acct-xyz" = .returns v) ∧
    BuildAccounts sampleBackend { Items := [[("name", .S "acct-xyz")]] } = .exits 1 := by
  refine ⟨by decide, ?_, by decide⟩
  rintro ⟨v, hv⟩
  have h : parseNameInt "acct-xyz" = .exits 1 := by decide
  rw [h] at hv; cases hv

/-- C6, amended: for every name without a decimal digit, deriving the numeric
key ends the process: `parseNameInt` exits with code 1 and returns no value or
error to its caller, and `BuildAccounts` exits with code 1 on every page that
holds a record unmarshalling to such a name. -/
theorem parseNameInt_no_digit_exits (s : String)
    (hno : ∀ b ∈ bytes s, isDigit b = false) :
    parseNameInt s = .exits 1 ∧
    ∀ (b : Backend) (page : ScanOutput),
      (∃ item ∈ page.Items, ∃ a, b.UnmarshalMap item {} = .ok a ∧ a.Name = s) →
      BuildAccounts b page = .exits 1 := by
  have hfil : (bytes s).filter isDigit = [] := by
    rw [List.filter_eq_nil_iff]
    intro b hb; simp [hno b hb]
  have hexit : parseNameInt s = .exits 1 := by
    simp [parseNameInt, hfil, Atoi]
  refine ⟨hexit, ?_⟩
  rintro b page ⟨item, hmem, a, ha, hname⟩
  exact BuildAccounts_loop_exits b page.Items [] ⟨item, hmem, a, ha, by rw [hname]; exact hexit⟩

/-- Witness of the amended C6: the name "acct-xyz" has no digit. -/
theorem parseNameInt_no_digit_exits_witness :
    parseNameInt "acct-xyz" = .exits 1 ∧
    BuildAccounts sampleBackend { Items := [[("name", .S "acct-042")], [("name", .S "acct-xyz")]] }
      = .exits 1 :=
  have h := parseNameInt_no_digit_exits "acct-xyz" (by decide)
  ⟨h.1, h.2 sampleBackend _ ⟨[("name", .S "acct-xyz")], by decide, { Name := "acct-xyz" },
    by rfl, rfl⟩⟩

/-- C7: for every name with at least one decimal digit whose digits, read left
to right in base 10, fit in an `int`, `parseNameInt` returns exactly that number,
which is not negative; the same number comes out for every name whose digit
bytes are these digits behind any number of zeros, whatever its other bytes. -/
theorem parseNameInt_value (s : String)
    (hdigit : ∃ b ∈ bytes s, isDigit b = true)
    (hfit : specNumericKey s < 2 ^ (intSize - 1)) :
    parseNameInt s = .returns (specNumericKey s : Int) ∧
    (0 : Int) ≤ (specNumericKey s : Int) ∧
    ∀ (t : String) (k : Nat),
      (bytes t).filter isDigit = List.replicate k 48 ++ (bytes s).filter isDigit →
      parseNameInt t = .returns (specNumericKey s : Int) := by
  have hne : (bytes s).filter isDigit ≠ [] := by
    obtain ⟨b, hb, hd⟩ := hdigit
    exact List.ne_nil_of_mem (List.mem_filter.2 ⟨hb, hd⟩)
  have hall : ∀ d ∈ (bytes s).filter isDigit, isDigit d = true :=
    fun d hd => (List.mem_filter.1 hd).2
  have hval : ((bytes s).filter isDigit).foldl (fun n d => n * 10 + (d - 48)) 0 =
      specNumericKey s := foldl_digits_eq_ofDigits _
  refine ⟨?_, Int.ofNat_nonneg _, ?_⟩
  · unfold parseNameInt
    simp only [Atoi_digits _ hne hall, hval, Nat.not_le.2 hfit, if_false]
  · intro t k ht
    have hne2 : List.replicate k 48 ++ (bytes s).filter isDigit ≠ [] := by
      simp [hne]
    have hall2 : ∀ d ∈ List.replicate k 48 ++ (bytes s).filter isDigit, isDigit d = true := by
      intro d hd
      rcases List.mem_append.1 hd with h1 | h2
      · rw [(List.mem_replicate.1 h1).2]; decide
      · exact hall d h2
    unfold parseNameInt
    simp only [ht, Atoi_digits _ hne2 hall2, foldl_digits_zeros, hval, Nat.not_le.2 hfit,
      if_false]

/-- Witness of C7: "acct-042" gives 42. -/
theorem parseNameInt_value_witness :
    parseNameInt "acct-042" = .returns 42 := by
  have h := (parseNameInt_value "acct-042" ⟨48, by decide, by decide⟩ (by decide)).1
  have hk : specNumericKey "acct-042" = 42 := by decide
  rw [hk] at h
  exact h

/-- `BuildAccounts.loop` on records that all unmarshal and all have a numeric
key: it returns, and appends one account per item, in order. -/
theorem BuildAccounts_loop_returns (b : Backend) (items : List Item) (acc : List Account)
    (hkeys : ∀ item ∈ items, ∃ a n, b.UnmarshalMap item {} = .ok a ∧
      parseNameInt a.Name = .returns n) :
    ∃ built, BuildAccounts.loop b items acc = .returns (acc ++ built) ∧
      List.Forall₂ (builtFrom b) items built := by
  induction items generalizing acc with
  | nil => exact ⟨[], by simp [BuildAccounts.loop], List.Forall₂.nil⟩
  | cons x rest ih =>
    obtain ⟨a, n, hu, hp⟩ := hkeys x (List.mem_cons_self x rest)
    obtain ⟨built, hloop, hall⟩ :=
      ih (acc ++ [{ a with NameInt := n }]) (fun item hmem => hkeys item (List.mem_cons_of_mem x hmem))
    refine ⟨{ a with NameInt := n } :: built, ?_, List.Forall₂.cons ⟨a, hu, rfl, hp⟩ hall⟩
    unfold BuildAccounts.loop
    simp only [hu, hp, hloop, List.append_assoc, List.singleton_append]

/-- Every account of a list related item by item to a list of items comes from
one of the items. -/
theorem builtFrom_of_mem (b : Backend) {items : List Item} {built : List Account}
    (hall : List.Forall₂ (builtFrom b) items built) (acc : Account) (hacc : acc ∈ built) :
    ∃ item, item ∈ items ∧ builtFrom b item acc := by
  induction hall with
  | nil => cases hacc
  | cons hhead _ ih =>
    rcases List.mem_cons.1 hacc with heq | hin
    · subst heq
      exact ⟨_, List.mem_cons_self _ _, hhead⟩
    · obtain ⟨item, hmem, hrel⟩ := ih hin
      exact ⟨item, List.mem_cons_of_mem _ hmem, hrel⟩

/-- `ScanPages` with the callback of `GetAccounts`, on pages whose records all
unmarshal and all have a numeric key: every delivered page is read, and the
result is the fault of the scan with one account per item, in order. -/
theorem ScanPages_collects (b : Backend) (fault : Option StoreFault) (pages : List ScanOutput)
    (acc : List Account)
    (hkeys : ∀ page ∈ pages, ∀ item ∈ page.Items, ∃ a n, b.UnmarshalMap item {} = .ok a ∧
      parseNameInt a.Name = .returns n) :
    ∃ built,
      ScanPages
        (fun page (_ : Bool) (accounts : List Account) =>
          match BuildAccounts b page with
          | .exits code => (.exits code : Run (List Account × Bool))
          | .returns built => .returns (accounts ++ built, true))
        fault pages acc = .returns (acc ++ built, fault) ∧
      List.Forall₂ (builtFrom b) (itemsOf pages) built := by
  induction pages generalizing acc with
  | nil => exact ⟨[], by simp [ScanPages], by simp [itemsOf]⟩
  | cons page rest ih =>
    obtain ⟨built1, h1, hall1⟩ :=
      BuildAccounts_loop_returns b page.Items [] (hkeys page (List.mem_cons_self page rest))
    obtain ⟨built2, h2, hall2⟩ :=
      ih (acc ++ built1) (fun pg hmem => hkeys pg (List.mem_cons_of_mem page hmem))
    refine ⟨built1 ++ built2, ?_, ?_⟩
    · have h1b : BuildAccounts b page = .returns built1 := by
        simpa [BuildAccounts] using h1
      rw [ScanPages]
      simp only [h1b, h2, List.append_assoc]
    · simp only [itemsOf, List.map_cons, List.flatten_cons]
      exact List.rel_append hall1 hall2

/-- C9, as stated, fails: the scan for the filter `service_uuid = u-77` delivers
one page without fault, its one record has the name `acct-077` whose numeric key
is 77, yet `GetAccounts` returns no account list: the record does not unmarshal
and the process exits with code 1. -/
theorem get_accounts_unmarshal_failure_exits :
    sampleBackend.Scan
      { TableName := sampleBackend.table
        ProjectionExpression := some projectionNames
        FilterExpression := some (.Equal "service_uuid" (.S "u-77")) } =
      ([{ Items := [sampleBadItem] }], none) ∧
    sampleBadItem.lookup "name" = some (.S "acct-077") ∧
    parseNameInt "acct-077" = .returns 77 ∧
    GetAccounts sampleBackend [.Equal "service_uuid" (.S "u-77")] = .exits 1 ∧
    ¬ ∃ accounts err,
      GetAccounts sampleBackend [.Equal "service_uuid" (.S "u-77")] = .returns (accounts, err) := by
  have hexit : GetAccounts sampleBackend [.Equal "service_uuid" (.S "u-77")] = .exits 1 := by
    rfl
  refine ⟨by rfl, by rfl, by decide, hexit, ?_⟩
  rintro ⟨accounts, err, h⟩
  rw [hexit] at h
  cases h

/-- C9, amended: when the scan that `GetAccounts` issues delivers `pages` without
fault, and every record of every page unmarshals to an account whose name has a
derivable numeric key, `GetAccounts` returns, without error, exactly one account
per item of every page, pages in scan order and items in page order, never
stopping before the last page; each account is the unmarshalled record with
`NameInt` equal to `parseNameInt` of its `Name`. -/
theorem get_accounts_all_pages (b : Backend) (filters : List ConditionBuilder)
    (expr : Expression) (pages : List ScanOutput)
    (hbuild : ((filters.foldl (fun builder filter => builder.WithFilter filter)
        NewBuilder).WithProjection projectionNames).Build = .ok expr)
    (hscan : b.Scan
      { TableName := b.table
        ProjectionExpression := expr.Projection
        FilterExpression := expr.Filter } = (pages, none))
    (hkeys : ∀ page ∈ pages, ∀ item ∈ page.Items, ∃ a n, b.UnmarshalMap item {} = .ok a ∧
      parseNameInt a.Name = .returns n) :
    ∃ accounts, GetAccounts b filters = .returns (accounts, none) ∧
      List.Forall₂ (builtFrom b) (itemsOf pages) accounts ∧
      accounts.length = (itemsOf pages).length ∧
      ∀ acc ∈ accounts, parseNameInt acc.Name = .returns acc.NameInt := by
  obtain ⟨built, hrun, hall⟩ := ScanPages_collects b none pages [] hkeys
  refine ⟨built, ?_, hall, hall.length_eq.symm, ?_⟩
  · unfold GetAccounts
    simp only [hbuild, hscan, hrun, List.nil_append]
  · intro acc hacc
    obtain ⟨item, _, hrel⟩ := builtFrom_of_mem b hall acc hacc
    exact hrel.choose_spec.2.2

/-- Witness of the amended C9 on the sample backend: a scan of two pages with
three records and no filter. -/
theorem get_accounts_all_pages_witness :
    ∃ accounts, GetAccounts sampleBackend [] = .returns (accounts, none) ∧
      List.Forall₂ (builtFrom sampleBackend) (itemsOf samplePages) accounts ∧
      accounts.length = (itemsOf samplePages).length ∧
      ∀ acc ∈ accounts, parseNameInt acc.Name = .returns acc.NameInt :=
  get_accounts_all_pages sampleBackend [] { Filter := none, Projection := some projectionNames }
    samplePages (by rfl) (by rfl)
    (by
      intro page hp item hi
      simp only [samplePages, List.mem_cons, List.mem_singleton, List.not_mem_nil,
        or_false] at hp
      rcases hp with rfl | rfl
      · simp only [List.mem_cons, List.mem_singleton, List.not_mem_nil, or_false] at hi
        rcases hi with rfl | rfl
        · exact ⟨{ Name := "acct-042", Available := true }, 42, by rfl, by decide⟩
        · exact ⟨{ Name := "sandbox7" }, 7, by rfl, by decide⟩
      · simp only [List.mem_cons, List.mem_singleton, List.not_mem_nil, or_false] at hi
        subst hi
        exact ⟨{ Name := "sandbox12-3" }, 123, by rfl, by decide⟩)

/-- Marking twice is marking once, on the list store. -/
theorem Store_MarkForCleanup_idem (name : String) (s : List AwsAccount) :
    (Store.MarkForCleanup name (Store.MarkForCleanup name s).2).2 =
      (Store.MarkForCleanup name s).2 := by
  simp only [Store.MarkForCleanup, List.map_map]
  apply List.map_congr_left
  intro a _
  by_cases h : a.Name = name <;> simp [h]

/-- Marking keeps every name of the list store. -/
theorem Store_MarkForCleanup_keeps (name other : String) (s : List AwsAccount)
    (h : ∃ a ∈ s, a.Name = other) :
    ∃ a ∈ (Store.MarkForCleanup name s).2, a.Name = other := by
  obtain ⟨a, ha, hname⟩ := h
  by_cases hn : a.Name = name
  · exact ⟨{ a with ToCleanup := true }, by
      simp only [Store.MarkForCleanup, List.mem_map]
      exact ⟨a, ha, by simp [hn]⟩, hname⟩
  · exact ⟨a, by
      simp only [Store.MarkForCleanup, List.mem_map]
      exact ⟨a, ha, by simp [hn]⟩, hname⟩

/-- `FetchByName` resolves every name the list store holds, to a record of that
name. -/
theorem Store_FetchByName_of_mem (name : String) (s : List AwsAccount)
    (h : ∃ a ∈ s, a.Name = name) :
    ∃ found, Store.FetchByName name s = .ok found ∧ found.Name = name := by
  unfold Store.FetchByName
  cases hf : s.find? (fun a => decide (a.Name = name)) with
  | none =>
    obtain ⟨a, ha, hname⟩ := h
    have := List.find?_eq_none.1 hf a ha
    simp [hname] at this
  | some found =>
    have := List.find?_some hf
    exact ⟨found, rfl, by simpa using this⟩

/-- `CleanupAccountHandler` on a provider whose lookup resolves the account and
whose `MarkForCleanup` succeeds: 200 with "Account marked for cleanup", and the
state is the one `MarkForCleanup` left. -/
theorem cleanup_handler_ok {σ : Type} (c : Wire) (p : AwsAccountProvider σ) (s s1 : σ)
    (r : Request) (sandbox : AwsAccount)
    (hf : p.FetchByName r.account s = .ok sandbox)
    (hm : p.MarkForCleanup sandbox.Name s = (none, s1)) :
    (NewAccountHandler (some p)).CleanupAccountHandler c s r =
      (.returned
        { status := some 200, body := rendered c (.SimpleMessage "Account marked for cleanup") },
        s1) := by
  simp only [AccountHandler.CleanupAccountHandler, NewAccountHandler, hf, hm, render_fresh]

/-- The cleanup request for a name the list store holds, served `n` times. -/
theorem cleanupTimes_store (c : Wire) (r : Request) (n : Nat) (s : List AwsAccount)
    (h : ∃ a ∈ s, a.Name = r.account) :
    cleanupTimes c (NewAccountHandler (some Store.provider)) r (n + 1) s =
      (List.replicate (n + 1) (.returned
          { status := some 200, body := rendered c (.SimpleMessage "Account marked for cleanup") }),
        (Store.MarkForCleanup r.account s).2) := by
  induction n generalizing s with
  | zero =>
    obtain ⟨found, hf, hname⟩ := Store_FetchByName_of_mem r.account s h
    have hstep := cleanup_handler_ok c Store.provider s (Store.MarkForCleanup r.account s).2 r
      found hf (by rw [hname]; rfl)
    simp [cleanupTimes, hstep]
  | succ n ih =>
    obtain ⟨found, hf, hname⟩ := Store_FetchByName_of_mem r.account s h
    have hstep := cleanup_handler_ok c Store.provider s (Store.MarkForCleanup r.account s).2 r
      found hf (by rw [hname]; rfl)
    rw [cleanupTimes, hstep]
    simp only
    rw [ih _ (Store_MarkForCleanup_keeps _ _ _ h), Store_MarkForCleanup_idem]
    rfl

/-- `MarkForCleanup(name)` called `n + 1` times on the list store. -/
theorem markTimes_store (name : String) (n : Nat) (s : List AwsAccount) :
    markTimes Store.provider name (n + 1) s =
      (List.replicate (n + 1) none, (Store.MarkForCleanup name s).2) := by
  induction n generalizing s with
  | zero => simp [markTimes, Store.provider, Store.MarkForCleanup]
  | succ n ih =>
    rw [markTimes]
    rw [show (Store.provider.MarkForCleanup name s) = Store.MarkForCleanup name s from rfl,
      ih, Store_MarkForCleanup_idem]
    rfl

/-- C10: on the provider contract of the spec, `MarkForCleanup(a.name)` called
`n >= 1` times on an existing account leaves the state one call leaves, with
`to_cleanup = true` on the account, and no call returns an error; and
`CleanupAccountHandler` served `n` times for that account answers 200 "Account
marked for cleanup" every time and leaves that same state. -/
theorem mark_for_cleanup_idempotent (c : Wire) (s : List AwsAccount) (a : AwsAccount)
    (ha : a ∈ s) (n : Nat) (hn : 1 ≤ n) (r : Request) (hr : r.account = a.Name) :
    (markTimes Store.provider a.Name n s).2 = (Store.provider.MarkForCleanup a.Name s).2 ∧
    (∀ e ∈ (markTimes Store.provider a.Name n s).1, e = none) ∧
    (∀ x ∈ (markTimes Store.provider a.Name n s).2, x.Name = a.Name → x.ToCleanup = true) ∧
    (cleanupTimes c (NewAccountHandler (some Store.provider)) r n s).2 =
      (Store.provider.MarkForCleanup a.Name s).2 ∧
    (cleanupTimes c (NewAccountHandler (some Store.provider)) r n s).1 =
      List.replicate n (.returned
        { status := some 200, body := rendered c (.SimpleMessage "Account marked for cleanup") }) := by
  obtain ⟨m, rfl⟩ : ∃ m, n = m + 1 := ⟨n - 1, by omega⟩
  rw [markTimes_store, cleanupTimes_store c r m s ⟨a, ha, hr.symm⟩, hr]
  refine ⟨rfl, ?_, ?_, rfl, rfl⟩
  · intro e he
    exact (List.mem_replicate.1 he).2
  · intro x hx hname
    simp only [Store.MarkForCleanup, List.mem_map] at hx
    obtain ⟨y, _, hy⟩ := hx
    by_cases hyn : y.Name = a.Name
    · rw [if_pos hyn] at hy; rw [← hy]
    · rw [if_neg hyn] at hy; rw [← hy] at hname; exact absurd hname hyn

/-- Witness of C10 on the sample store: three cleanup requests for `acct-042`. -/
theorem mark_for_cleanup_idempotent_witness :
    (cleanupTimes sampleWire (NewAccountHandler (some Store.provider))
        { kind := "aws", account := "acct-042" } 3 [sampleAccount]).2 =
      [{ sampleAccount with ToCleanup := true }] ∧
    (cleanupTimes sampleWire (NewAccountHandler (some Store.provider))
        { kind := "aws", account := "acct-042" } 3 [sampleAccount]).1 =
      List.replicate 3 (.returned
        { status := some 200, body := [.SimpleMessage "Account marked for cleanup"] }) :=
  have h := mark_for_cleanup_idempotent sampleWire [sampleAccount] sampleAccount
    (List.mem_singleton.2 rfl) 3 (by decide) { kind := "aws", account := "acct-042" } rfl
  ⟨h.2.2.2.1, h.2.2.2.2⟩

/-- C12: `parseNameInt` ends the process (with exit code 1, by `log.Err.Fatal`)
exactly when the name has no decimal digit byte or its digit string denotes a
number above `2 ^ 63 - 1`, the greatest 64-bit `int`; for every other name it
returns, and what it returns is that number. -/
theorem parseNameInt_exits_iff (s : String) :
    ((∃ code, parseNameInt s = .exits code) ↔
      ((∀ b ∈ bytes s, isDigit b = false) ∨ 2 ^ 63 - 1 < specNumericKey s)) ∧
    (∀ code, parseNameInt s = .exits code → code = 1) ∧
    (¬ ((∀ b ∈ bytes s, isDigit b = false) ∨ 2 ^ 63 - 1 < specNumericKey s) →
      parseNameInt s = .returns (specNumericKey s : Int)) := by
  have hval : ((bytes s).filter isDigit).foldl (fun n d => n * 10 + (d - 48)) 0 =
      specNumericKey s := foldl_digits_eq_ofDigits _
  have hcode : ∀ code, parseNameInt s = .exits code → code = 1 :=
    fun code h => parseNameInt_exits_code s code h
  by_cases hnil : (bytes s).filter isDigit = []
  · have hno : ∀ b ∈ bytes s, isDigit b = false := by
      intro b hb
      have := List.filter_eq_nil_iff.1 hnil b hb
      simpa using this
    have hexit : parseNameInt s = .exits 1 := by
      simp [parseNameInt, hnil, Atoi]
    exact ⟨⟨fun _ => Or.inl hno, fun _ => ⟨1, hexit⟩⟩, hcode, fun h => absurd (Or.inl hno) h⟩
  · have hall : ∀ d ∈ (bytes s).filter isDigit, isDigit d = true :=
      fun d hd => (List.mem_filter.1 hd).2
    have hsome : ¬ ∀ b ∈ bytes s, isDigit b = false := by
      intro hno
      apply hnil
      rw [List.filter_eq_nil_iff]
      intro b hb
      simp [hno b hb]
    by_cases hbig : 2 ^ (intSize - 1) ≤ specNumericKey s
    · have hexit : parseNameInt s = .exits 1 := by
        unfold parseNameInt
        simp only [Atoi_digits _ hnil hall, hval, hbig, if_true]
      have hlt : 2 ^ 63 - 1 < specNumericKey s := by
        simp only [intSize] at hbig
        omega
      exact ⟨⟨fun _ => Or.inr hlt, fun _ => ⟨1, hexit⟩⟩, hcode, fun h => absurd (Or.inr hlt) h⟩
    · have hret : parseNameInt s = .returns (specNumericKey s : Int) := by
        unfold parseNameInt
        simp only [Atoi_digits _ hnil hall, hval, hbig, if_false]
      have hle : ¬ 2 ^ 63 - 1 < specNumericKey s := by
        simp only [intSize] at hbig
        omega
      refine ⟨⟨?_, ?_⟩, hcode, fun _ => hret⟩
      · rintro ⟨code, h⟩
        rw [hret] at h
        cases h
      · rintro (h | h)
        · exact absurd h hsome
        · exact absurd h hle

/-- Witness of C12: a name without digits and a name whose digits denote
`2 ^ 63` end the process; a name whose digits denote `2 ^ 63 - 1` returns. -/
theorem parseNameInt_exits_iff_witness :
    (∃ code, parseNameInt "acct-xyz" = .exits code) ∧
    (∃ code, parseNameInt "a9223372036854775808" = .exits code) ∧
    parseNameInt "a9223372036854775807" = .returns 9223372036854775807 :=
  ⟨(parseNameInt_exits_iff "acct-xyz").1.2 (Or.inl (by decide)),
   (parseNameInt_exits_iff "a9223372036854775808").1.2 (Or.inr (by decide)),
   by
    have h := (parseNameInt_exits_iff "a9223372036854775807").2.2 (by decide)
    have hk : specNumericKey "a9223372036854775807" = 9223372036854775807 := by decide
    rw [hk] at h
    exact h⟩

/-- C13, on the code: a handler built by `NewAccountHandler` has no OCP provider,
and for kind "ocp" `GetAccountsHandler` calls a method on that nil provider,
whatever the `service_uuid`: the handler panics before anything is written. For
kind "aws" it does not panic. -/
theorem get_accounts_handler_ocp_panics {σ : Type} (c : Wire) (p : AwsAccountProvider σ)
    (s : σ) (r : Request) :
    (NewAccountHandler (some p)).OcpAccountProvider.isNone = true ∧
    (NewAccountHandler (some p)).GetAccountsHandler c s { r with kind := "ocp" } =
      .panicked {} ∧
    ∀ w, (NewAccountHandler (some p)).GetAccountsHandler c s { r with kind := "aws" } ≠
      .panicked w := by
  refine ⟨rfl, ?_, ?_⟩
  · simp [AccountHandler.GetAccountsHandler, NewAccountHandler]
  · intro w
    simp only [AccountHandler.GetAccountsHandler, NewAccountHandler, if_true]
    split
    · simp
    · split <;> simp

/-- The builder after the loop of `GetAccounts` over `filters`: the filter slot
holds the last condition of the list only. -/
theorem foldl_WithFilter (filters : List ConditionBuilder) (b : Builder) :
    filters.foldl (fun builder filter => builder.WithFilter filter) b =
      { b with filter := (filters.getLast?).orElse (fun _ => b.filter) } := by
  induction filters generalizing b with
  | nil => cases b; rfl
  | cons f rest ih =>
    rw [List.foldl_cons, ih]
    cases rest with
    | nil => rfl
    | cons g tl =>
      obtain ⟨x, hx⟩ : ∃ x, (g :: tl).getLast? = some x :=
        ⟨_, List.getLast?_eq_getLast _ (List.cons_ne_nil g tl)⟩
      simp [Builder.WithFilter, List.getLast?_cons_cons, hx]

/-- `GetAccounts` on a list of conditions behaves as on the list of its last
condition alone. -/
theorem GetAccounts_last_filter (b : Backend) (filters : List ConditionBuilder) :
    GetAccounts b filters = GetAccounts b filters.getLast?.toList := by
  unfold GetAccounts
  simp only [foldl_WithFilter]
  cases h : filters.getLast? <;> simp [NewBuilder]

/-- C14, on the code: with the conditions `available = true` and
`service_uuid = u-1`, `GetAccounts` on the sample table returns `acct-001`,
which is not available: only the last condition of the list reaches the scan.
With no condition every record is returned. -/
theorem get_accounts_drops_earlier_filters :
    GetAccounts (tableBackend sampleTable)
        [.Equal "available" (.BOOL true), .Equal "service_uuid" (.S "u-1")] =
      .returns ([{ Name := "acct-001", NameInt := 1, Available := false },
                 { Name := "acct-002", NameInt := 2, Available := true }], none) ∧
    sampleOffItem ∈ sampleTable ∧
    sampleUnmarshal sampleOffItem {} = .ok { Name := "acct-001", Available := false } ∧
    (ConditionBuilder.Equal "available" (.BOOL true)).holds sampleOffItem = false ∧
    GetAccounts (tableBackend sampleTable) [] =
      .returns ([{ Name := "acct-001", NameInt := 1, Available := false },
                 { Name := "acct-002", NameInt := 2, Available := true },
                 { Name := "acct-003", NameInt := 3, Available := true }], none) := by
  refine ⟨by decide, by decide, by rfl, by decide, by decide⟩

/-- The legal transitions, spelled out. -/
theorem legalTransition_cases (s t : String) (h : legalTransition s t = true) :
    (s = "new" ∧ t = "running") ∨ (s = "running" ∧ (t = "success" ∨ t = "error")) := by
  simpa [legalTransition] using h

/-- One write changes the status of a job in one of three ways: not at all, from
absent to `new`, or along a legal transition. -/
theorem Ledger_step_status (rows : List LifecycleResourceJob) (w : LedgerWrite) (id : Nat) :
    Ledger.statusOf (Ledger.step rows w) id = Ledger.statusOf rows id ∨
    (Ledger.statusOf rows id = none ∧ Ledger.statusOf (Ledger.step rows w) id = some "new") ∨
    ∃ s t, Ledger.statusOf rows id = some s ∧
      Ledger.statusOf (Ledger.step rows w) id = some t ∧ legalTransition s t = true := by
  cases w with
  | Create job now =>
    simp only [Ledger.step, Ledger.Create, Ledger.statusOf, List.getElem?_append]
    by_cases hlt : id < rows.length
    · left; simp [hlt]
    · by_cases heq : id = rows.length
      · right; left
        subst heq
        simp
      · left
        have hgt : rows.length < id := by omega
        have h1 : rows[id]? = none := List.getElem?_eq_none (by omega)
        have h2 : ∀ x : LifecycleResourceJob, [x][id - rows.length]? = none :=
          fun x => List.getElem?_eq_none (by simp only [List.length_singleton]; omega)
        simp [hlt, h1, h2]
  | Advance id1 status result now =>
    simp only [Ledger.step, Ledger.Advance]
    cases hrow : rows[id1]? with
    | none => left; rfl
    | some row =>
      by_cases hlegal : legalTransition row.Status status = true
      · simp only [hlegal, if_true]
        by_cases hid : id1 = id
        · right; right
          subst hid
          have hlen : id1 < rows.length := by
            by_contra hcon
            rw [List.getElem?_eq_none (by omega)] at hrow
            cases hrow
          exact ⟨row.Status, status, by simp [Ledger.statusOf, hrow],
            by simp [Ledger.statusOf, List.getElem?_set, hlen], hlegal⟩
        · left
          simp [Ledger.statusOf, List.getElem?_set, hid]
      · left
        simp [hlegal]

/-- Over any run of writes, the history of a job stays within what its current
status still allows. -/
theorem Ledger_history_allowed (id : Nat) (ws : List LedgerWrite)
    (rows : List LifecycleResourceJob) :
    Ledger.allowed (Ledger.statusOf rows id) (Ledger.history id rows ws) := by
  induction ws generalizing rows with
  | nil =>
    unfold Ledger.allowed Ledger.history
    cases Ledger.statusOf rows id with
    | none => exact Or.inl List.nil_prefix
    | some st =>
      simp only
      split
      · exact Or.inl List.nil_prefix
      · split
        · exact Or.inl List.nil_prefix
        · trivial
  | cons w ws ih =>
    have hrest := ih (Ledger.step rows w)
    rw [Ledger.history]
    rcases Ledger_step_status rows w id with hsame | ⟨hnone, hnew⟩ | ⟨s, t, hs, ht, hlegal⟩
    · rw [if_pos hsame, List.nil_append, ← hsame]
      exact hrest
    · rw [hnew] at hrest
      rw [if_neg (by rw [hnone, hnew]; simp), hnew, hnone]
      simp only [Ledger.allowed, if_true] at hrest
      simp only [Ledger.allowed, Option.toList, List.singleton_append, List.prefix_cons_inj]
      exact hrest
    · rw [ht] at hrest
      rcases legalTransition_cases s t hlegal with ⟨rfl, rfl⟩ | ⟨rfl, rfl | rfl⟩
      · rw [if_neg (by rw [hs, ht]; simp), ht, hs]
        simp only [Ledger.allowed, if_true, String.reduceEq, if_false] at hrest
        simp only [Ledger.allowed, if_true, Option.toList, List.singleton_append,
          List.prefix_cons_inj]
        exact hrest
      · rw [if_neg (by rw [hs, ht]; simp), ht, hs]
        simp only [Ledger.allowed, String.reduceEq, if_false] at hrest
        simp only [Ledger.allowed, if_true, String.reduceEq, if_false, Option.toList,
          List.singleton_append, hrest]
        exact Or.inl (List.prefix_refl _)
      · rw [if_neg (by rw [hs, ht]; simp), ht, hs]
        simp only [Ledger.allowed, String.reduceEq, if_false] at hrest
        simp only [Ledger.allowed, if_true, String.reduceEq, if_false, Option.toList,
          List.singleton_append, hrest]
        exact Or.inr (List.prefix_refl _)

/-- C11: on the job ledger of the spec, started empty, the status values of every
job over any run of `Create` and `Advance` writes form a subsequence of
new, running, success or of new, running, error; a created job has status `new`
(and `new` is the status of every job the lifecycle handler submits); and an
`Advance` that would move a job backward or change a job in a terminal state
fails with `Conflict` and leaves the ledger, hence the job, unchanged. -/
theorem job_status_sequence (ws : List LedgerWrite) (id : Nat) :
    ((Ledger.history id [] ws).Sublist ["new", "running", "success"] ∨
      (Ledger.history id [] ws).Sublist ["new", "running", "error"]) ∧
    (∀ rows job now, (Ledger.Create rows job now).1.Status = "new" ∧
      Ledger.statusOf (Ledger.Create rows job now).2 (Ledger.Create rows job now).1.ID =
        some "new") ∧
    (∀ (σ : Type) (c : Wire) (h : BaseHandler σ) (action : String) (s : σ) (r : Request) job,
      DbCall.Create job ∈ (h.LifeCycleAccountHandler c action s r).2 → job.Status = "new") ∧
    (∀ rows (jobId : Nat) row status result now, rows[jobId]? = some row →
      (row.Status = "success" ∨ row.Status = "error" ∨
        (row.Status = "running" ∧ status = "new")) →
      Ledger.Advance rows jobId status result now = .error .Conflict ∧
      Ledger.step rows (.Advance jobId status result now) = rows) := by
  refine ⟨?_, ?_, ?_, ?_⟩
  · have h := Ledger_history_allowed id ws []
    have hnone : Ledger.statusOf [] id = none := by simp [Ledger.statusOf]
    rw [hnone] at h
    rcases h with h | h
    · exact Or.inl h.sublist
    · exact Or.inr h.sublist
  · intro rows job now
    simp [Ledger.Create, Ledger.statusOf]
  · intro σ c h action s r job hmem
    cases hf : h.awsAccountProvider.FetchByName r.account s with
    | error e =>
      simp only [BaseHandler.LifeCycleAccountHandler, hf] at hmem
      by_cases he : e = GoError.ErrAccountNotFound <;> simp [he] at hmem
    | ok sandbox =>
      simp only [BaseHandler.LifeCycleAccountHandler, hf] at hmem
      split at hmem <;>
        (simp only [List.mem_singleton, DbCall.Create.injEq] at hmem; rw [hmem])
  · intro rows jobId row status result now hrow hcase
    have hillegal : legalTransition row.Status status = false := by
      rcases hcase with h | h | ⟨h1, h2⟩
      · simp [legalTransition, h]
      · simp [legalTransition, h]
      · simp [legalTransition, h1, h2]
    simp [Ledger.step, Ledger.Advance, hrow, hillegal]

/-- Witness of C11 on the sample run: the first job shows new, running, success,
and the two writes attempted on it afterwards fail with `Conflict`. -/
theorem job_status_sequence_witness :
    Ledger.history 0 [] sampleRun = ["new", "running", "success"] ∧
    ((Ledger.history 0 [] sampleRun).Sublist ["new", "running", "success"] ∨
      (Ledger.history 0 [] sampleRun).Sublist ["new", "running", "error"]) ∧
    Ledger.Advance
        [{ ID := 0, ResourceName := "acct-042", Action := "cleanup", Status := "success",
           Result := "done", CreatedAt := 10, UpdatedAt := 13 }]
        0 "running" "" 14 = .error .Conflict :=
  ⟨by decide, (job_status_sequence sampleRun 0).1,
   ((job_status_sequence sampleRun 0).2.2.2
      [{ ID := 0, ResourceName := "acct-042", Action := "cleanup", Status := "success",
         Result := "done", CreatedAt := 10, UpdatedAt := 13 }]
      0 _ "running" "" 14 rfl (Or.inl rfl)).1⟩

end Sandbox
